import Mathlib

/-!
Verification of the step-tracker synchronizer (`update_steps.py`).

The Python source is shallowly embedded: each function modelled here keeps
the source's name where Lean allows it, and stateful behaviour (invocation
counts, sleep delays, storage traffic) is made explicit as returned traces.
-/

namespace StepTracker

/-! ## Backoff retry driver (`retry_with_backoff`, update_steps.py lines 59-102)

The Python driver runs `func` for `attempt in range(max_retries + 1)`.
A raised error that is an instance of the `exceptions` tuple is caught;
if `attempt == max_retries` it is re-raised as-is, otherwise the driver
sleeps `min(base_delay * backoff_factor ** attempt, max_delay)` and loops.
An error outside the `exceptions` tuple is not caught and propagates at once.

We model the operation as `op : Nat → Except E A` (the result of invocation
number `i`), the `exceptions` tuple as a predicate `retryable : E → Bool`,
and record the observable trace: final outcome, number of invocations of
`op`, and the list of sleep delays in order. -/

structure RetryTrace (E A : Type) where
  result : Except E A
  attempts : Nat
  delays : List ℚ
  deriving Repr

/-- One pass of the `for attempt in range(max_retries + 1)` loop.
`rem` is the number of loop iterations still allowed after the current one
(`rem = max_retries - attempt`); `rem = 0` is the `attempt == max_retries`
case, where the caught error is re-raised (and an uncaught one propagates,
with the same observable trace). -/
def retryRun (op : Nat → Except E A) (retryable : E → Bool)
    (base_delay max_delay backoff_factor : ℚ) : Nat → Nat → RetryTrace E A
  | 0, attempt =>
    match op attempt with
    | .ok a => { result := .ok a, attempts := 1, delays := [] }
    | .error e => { result := .error e, attempts := 1, delays := [] }
  | rem + 1, attempt =>
    match op attempt with
    | .ok a => { result := .ok a, attempts := 1, delays := [] }
    | .error e =>
      if retryable e then
        let d := min (base_delay * backoff_factor ^ attempt) max_delay
        let t := retryRun op retryable base_delay max_delay backoff_factor rem (attempt + 1)
        { result := t.result, attempts := t.attempts + 1, delays := d :: t.delays }
      else { result := .error e, attempts := 1, delays := [] }

/-- `retry_with_backoff(func, max_retries, base_delay, max_delay, backoff_factor,
exceptions)`: start the loop at attempt index 0. -/
def retry_with_backoff (op : Nat → Except E A) (retryable : E → Bool)
    (max_retries : Nat) (base_delay max_delay backoff_factor : ℚ) : RetryTrace E A :=
  retryRun op retryable base_delay max_delay backoff_factor max_retries 0

/-- A concrete permanently-failing retryable operation, used by witnesses. -/
def alwaysFail : Nat → Except String Nat := fun _ => Except.error "boom"

theorem retryRun_all_fail {E A : Type} (op : Nat → Except E A) (errs : Nat → E)
    (retryable : E → Bool) (b m f : ℚ)
    (hop : ∀ i, op i = .error (errs i)) (hr : ∀ i, retryable (errs i) = true) :
    ∀ rem attempt, retryRun op retryable b m f rem attempt =
      { result := .error (errs (attempt + rem)), attempts := rem + 1,
        delays := (List.range rem).map (fun i => min (b * f ^ (attempt + i)) m) } := by
  intro rem
  induction rem with
  | zero =>
    intro attempt
    simp [retryRun, hop attempt]
  | succ n ih =>
    intro attempt
    have hd : (List.range (n + 1)).map (fun i => min (b * f ^ (attempt + i)) m)
        = min (b * f ^ attempt) m ::
            (List.range n).map (fun i => min (b * f ^ (attempt + 1 + i)) m) := by
      rw [List.range_succ_eq_map, List.map_cons, List.map_map]
      congr 1
      congr 1
      funext i
      show min (b * f ^ (attempt + (i + 1))) m = min (b * f ^ (attempt + 1 + i)) m
      rw [show attempt + (i + 1) = attempt + 1 + i from by omega]
    simp only [retryRun, hop attempt, hr (attempt), if_true]
    rw [ih (attempt + 1), hd]
    simp only [RetryTrace.mk.injEq]
    exact ⟨by rw [show attempt + 1 + n = attempt + (n + 1) from by omega], trivial, trivial⟩

/-- C1: for every `maxRetries = N ≥ 0` and every operation failing on each
attempt with a retryable error, the driver invokes the operation exactly
`N + 1` times and propagates the very error raised by the last attempt
(unwrapped); in particular with `maxRetries = 0` exactly one attempt is
made and any failure (retryable or not) propagates immediately. -/
theorem retry_exhausts_and_propagates_last_error {E A : Type}
    (op : Nat → Except E A) (errs : Nat → E) (retryable : E → Bool)
    (N : Nat) (b m f : ℚ)
    (hop : ∀ i, op i = .error (errs i)) (hr : ∀ i, retryable (errs i) = true) :
    ((retry_with_backoff op retryable N b m f).attempts = N + 1 ∧
     (retry_with_backoff op retryable N b m f).result = .error (errs N)) ∧
    (∀ (op₀ : Nat → Except E A) (e : E), op₀ 0 = .error e →
      retry_with_backoff op₀ retryable 0 b m f =
        { result := .error e, attempts := 1, delays := [] }) := by
  constructor
  · rw [retry_with_backoff, retryRun_all_fail op errs retryable b m f hop hr N 0]
    exact ⟨rfl, by rw [Nat.zero_add]⟩
  · intro op₀ e h
    simp [retry_with_backoff, retryRun, h]

/-- Witness for C1 at `N = 2` with a concrete operation. -/
theorem retry_exhausts_witness :
    (retry_with_backoff alwaysFail (fun _ => true) 2 1 60 2).attempts = 3 ∧
    (retry_with_backoff alwaysFail (fun _ => true) 2 1 60 2).result = .error "boom" :=
  (retry_exhausts_and_propagates_last_error alwaysFail (fun _ => "boom")
    (fun _ => true) 2 1 60 2 (fun _ => rfl) (fun _ => rfl)).1

/-- C2: an operation whose failure is not retryable is invoked exactly once
and the error propagates immediately with no sleeps, for every `maxRetries`. -/
theorem nonretryable_fails_fast {E A : Type} (op : Nat → Except E A)
    (retryable : E → Bool) (e : E) (N : Nat) (b m f : ℚ)
    (hop : op 0 = .error e) (hr : retryable e = false) :
    retry_with_backoff op retryable N b m f =
      { result := .error e, attempts := 1, delays := [] } := by
  cases N with
  | zero => simp [retry_with_backoff, retryRun, hop]
  | succ n => simp [retry_with_backoff, retryRun, hop, hr]

/-- Witness for C2 at `N = 5` with a concrete operation. -/
theorem nonretryable_fails_fast_witness :
    retry_with_backoff alwaysFail (fun _ => false) 5 1 60 2 =
      { result := .error "boom", attempts := 1, delays := [] } :=
  nonretryable_fails_fast alwaysFail (fun _ => false) "boom" 5 1 60 2 rfl rfl

/-- C3: on a permanently-failing retryable operation with `maxRetries = N`,
the sleep delays are exactly `min(b * f^0, m), …, min(b * f^(N-1), m)`. -/
theorem backoff_delay_sequence {E A : Type} (op : Nat → Except E A)
    (errs : Nat → E) (retryable : E → Bool) (N : Nat) (b m f : ℚ)
    (hop : ∀ i, op i = .error (errs i)) (hr : ∀ i, retryable (errs i) = true) :
    (retry_with_backoff op retryable N b m f).delays =
      (List.range N).map (fun i => min (b * f ^ i) m) := by
  rw [retry_with_backoff, retryRun_all_fail op errs retryable b m f hop hr N 0]
  simp

/-- Witness for C3: `b=1, f=2, m=60` over 2 retries sleeps `[1, 2]`, and
`b=10, f=2, m=5` over 2 retries sleeps `[5, 5]`. -/
theorem backoff_delay_sequence_witness :
    (retry_with_backoff alwaysFail (fun _ => true) 2 1 60 2).delays = [1, 2] ∧
    (retry_with_backoff alwaysFail (fun _ => true) 2 10 5 2).delays = [5, 5] := by
  constructor
  · rw [backoff_delay_sequence alwaysFail (fun _ => "boom") (fun _ => true) 2 1 60 2
      (fun _ => rfl) (fun _ => rfl)]
    norm_num [List.range_succ, min_def]
  · rw [backoff_delay_sequence alwaysFail (fun _ => "boom") (fun _ => true) 2 10 5 2
      (fun _ => rfl) (fun _ => rfl)]
    norm_num [List.range_succ, min_def]

/-! ## Storage-backend error classification (`classify_r2_error`,
update_steps.py lines 271-319)

For a structured `ClientError` the Python code reads
`error.response['Error']['Code']` and `...['Message']` and picks the
exception class from the code alone; the message only flows into the new
exception's text.  We embed that branch as a function of the two strings. -/

inductive R2ErrorKind
  | Authentication
  | Throttled
  | ServiceUnavailable
  | StorageCapacity
  | NetworkTransport
  deriving Repr, DecidableEq

structure ClassifiedR2Error where
  kind : R2ErrorKind
  msg : String
  deriving Repr, DecidableEq

def authCodes : List String :=
  ["NoCredentialsError", "InvalidAccessKeyId", "SignatureDoesNotMatch",
   "NoSuchBucket", "AccessDenied"]

def throttleCodes : List String := ["SlowDown", "RequestLimitExceeded", "TooManyRequests"]

def serviceCodes : List String := ["ServiceUnavailable", "RequestTimeout", "InternalError"]

def storageCodes : List String := ["BucketNotEmpty", "EntityTooLarge", "InsufficientStorage"]

def networkCodes : List String := ["NetworkingError", "ConnectionError"]

/-- The `isinstance(error, ClientError)` branch of `classify_r2_error`. -/
def classify_r2_error (error_code error_message : String) : ClassifiedR2Error :=
  if error_code ∈ authCodes then
    ⟨.Authentication, "R2 authentication failed: " ++ error_message
      ++ " (Code: " ++ error_code ++ ")"⟩
  else if error_code ∈ throttleCodes then
    ⟨.Throttled, "R2 rate limit exceeded: " ++ error_message
      ++ " (Code: " ++ error_code ++ ")"⟩
  else if error_code ∈ serviceCodes then
    ⟨.ServiceUnavailable, "R2 service unavailable: " ++ error_message
      ++ " (Code: " ++ error_code ++ ")"⟩
  else if error_code ∈ storageCodes then
    ⟨.StorageCapacity, "R2 storage issue: " ++ error_message
      ++ " (Code: " ++ error_code ++ ")"⟩
  else if error_code ∈ networkCodes then
    ⟨.NetworkTransport, "R2 network error: " ++ error_message
      ++ " (Code: " ++ error_code ++ ")"⟩
  else
    ⟨.ServiceUnavailable, "Unknown R2 error: " ++ error_message
      ++ " (Code: " ++ error_code ++ ")"⟩

/-- `retryable_exceptions = (R2NetworkError, R2ServiceError, R2ThrottleError)`
as used by `upload_file_to_r2_with_retry` (line 432). -/
def uploadRetryableKinds : R2ErrorKind → Bool
  | .NetworkTransport => true
  | .ServiceUnavailable => true
  | .Throttled => true
  | .Authentication => false
  | .StorageCapacity => false

/-- C4: for structured storage errors the classified kind depends only on the
provider code, never on the message; `SlowDown` is always `Throttled`
(retryable), `AccessDenied` is always `Authentication` (non-retryable), and
any code outside the five listed families is `ServiceUnavailable` (retryable). -/
theorem classify_r2_code_determinism :
    (∀ code msg₁ msg₂, (classify_r2_error code msg₁).kind = (classify_r2_error code msg₂).kind) ∧
    (∀ msg, (classify_r2_error "SlowDown" msg).kind = .Throttled ∧
      uploadRetryableKinds .Throttled = true) ∧
    (∀ msg, (classify_r2_error "AccessDenied" msg).kind = .Authentication ∧
      uploadRetryableKinds .Authentication = false) ∧
    (∀ code msg, code ∉ authCodes → code ∉ throttleCodes → code ∉ serviceCodes →
      code ∉ storageCodes → code ∉ networkCodes →
      (classify_r2_error code msg).kind = .ServiceUnavailable ∧
      uploadRetryableKinds .ServiceUnavailable = true) := by
  refine ⟨?_, ?_, ?_, ?_⟩
  · intro code msg₁ msg₂
    unfold classify_r2_error
    split_ifs <;> rfl
  · intro msg
    refine ⟨?_, rfl⟩
    unfold classify_r2_error
    rw [if_neg (by decide), if_pos (by decide)]
  · intro msg
    refine ⟨?_, rfl⟩
    unfold classify_r2_error
    rw [if_pos (by decide)]
  · intro code msg h₁ h₂ h₃ h₄ h₅
    refine ⟨?_, rfl⟩
    unfold classify_r2_error
    rw [if_neg h₁, if_neg h₂, if_neg h₃, if_neg h₄, if_neg h₅]

/-- Witness for C4 at concrete codes, including an unrecognized one. -/
theorem classify_r2_code_determinism_witness :
    (classify_r2_error "SlowDown" "please slow down").kind = .Throttled ∧
    (classify_r2_error "AccessDenied" "denied").kind = .Authentication ∧
    "TeapotStatus" ∉ authCodes ∧
    (classify_r2_error "TeapotStatus" "whatever").kind = .ServiceUnavailable :=
  ⟨(classify_r2_code_determinism.2.1 "please slow down").1,
   (classify_r2_code_determinism.2.2.1 "denied").1,
   by decide,
   (classify_r2_code_determinism.2.2.2 "TeapotStatus" "whatever"
     (by decide) (by decide) (by decide) (by decide) (by decide)).1⟩

/-! ## Daily records and the merge loop (`main`, update_steps.py lines 900-948)

The JSON mapping `data` can hold, under a date key, the current record
object `{"steps": s, "km": k}`, a legacy bare integer step count, or `null`.
Python numeric equality (`8000 == 8000`, `0 == 0.0`) is modelled by keeping
steps as `Int` and km as `ℚ`. -/

inductive StoredVal
  | legacy (steps : Int)
  | record (steps : Int) (km : ℚ)
  | null
  deriving Repr, DecidableEq

abbrev DataMap := List (String × StoredVal)

/-- `data_points.get(date_str)` / `date_str in data_points`. -/
def dataFind : DataMap → String → Option StoredVal
  | [], _ => none
  | (k, v) :: rest, key => if k = key then some v else dataFind rest key

/-- `data_points[date_str] = value` (replace, or add the key). -/
def dataSet : DataMap → String → StoredVal → DataMap
  | [], key, v => [(key, v)]
  | (k, w) :: rest, key, v =>
    if k = key then (k, v) :: rest else (k, w) :: dataSet rest key v

/-- One fetched Garmin entry, with the provider's two possible distance
fields; `none` stands for a missing key or a JSON `null`. -/
structure GarminEntry where
  calendarDate : String
  totalSteps : Option Int
  totalDistance : Option ℚ
  totalDistanceMeters : Option ℚ
  deriving Repr, DecidableEq

/-- Round half to even to an integer, as Python's `round` does. -/
def roundHalfEven (q : ℚ) : Int :=
  let n := ⌊q⌋
  let r := q - n
  if r < 1 / 2 then n
  else if 1 / 2 < r then n + 1
  else if n % 2 = 0 then n else n + 1

/-- `round(x, 2)`. -/
def round2 (q : ℚ) : ℚ := (roundHalfEven (q * 100) : ℚ) / 100

/-- `steps = entry['totalSteps'] or 0` — a provider `null` becomes 0. -/
def entrySteps (e : GarminEntry) : Int := e.totalSteps.getD 0

/-- `distance_meters = entry.get('totalDistance') or
entry.get('totalDistanceMeters', 0)` — a missing, `null` or zero
`totalDistance` falls back to `totalDistanceMeters` (0 when that too is
missing or `null`). -/
def entryMeters (e : GarminEntry) : ℚ :=
  match e.totalDistance with
  | some d => if d = 0 then e.totalDistanceMeters.getD 0 else d
  | none => e.totalDistanceMeters.getD 0

/-- `distance_km = round(distance_meters / 1000, 2) if distance_meters else 0`. -/
def entryKm (e : GarminEntry) : ℚ :=
  if entryMeters e = 0 then 0 else round2 (entryMeters e / 1000)

/-- `new_data = {"steps": steps, "km": distance_km}`. -/
def newData (e : GarminEntry) : StoredVal := .record (entrySteps e) (entryKm e)

/-- Backward compatibility (lines 922-926): an integer-valued existing
record is compared as `{"steps": value, "km": 0}`. -/
def normalizeLegacy : StoredVal → StoredVal
  | .legacy s => .record s 0
  | v => v

inductive ChangeKind
  | new
  | updated
  | unchanged
  deriving Repr, DecidableEq

/-- One iteration of the merge loop over fetched entries (lines 906-945):
absent key or `null` value → new; present with differing normalized value →
updated (overwrite); otherwise unchanged (no write). -/
def mergeEntry (data_points : DataMap) (e : GarminEntry) : DataMap × ChangeKind :=
  let nd := newData e
  match dataFind data_points e.calendarDate with
  | none => (dataSet data_points e.calendarDate nd, .new)
  | some .null => (dataSet data_points e.calendarDate nd, .new)
  | some v =>
    if normalizeLegacy v ≠ nd then (dataSet data_points e.calendarDate nd, .updated)
    else (data_points, .unchanged)

structure MergeResult where
  data : DataMap
  newCount : Nat
  updatedCount : Nat
  unchangedCount : Nat
  deriving Repr, DecidableEq

/-- The whole merge loop with its `new_count`/`updated_count`/
`unchanged_count` tallies, starting from `data_points = existing_data.copy()`. -/
def mergeStats : DataMap → List GarminEntry → MergeResult
  | m, [] => { data := m, newCount := 0, updatedCount := 0, unchangedCount := 0 }
  | m, e :: rest =>
    let p := mergeEntry m e
    let r := mergeStats p.1 rest
    match p.2 with
    | .new => { r with newCount := r.newCount + 1 }
    | .updated => { r with updatedCount := r.updatedCount + 1 }
    | .unchanged => { r with unchangedCount := r.unchangedCount + 1 }

theorem dataFind_dataSet (m : DataMap) (key : String) (v : StoredVal) (d : String) :
    dataFind (dataSet m key v) d = if key = d then some v else dataFind m d := by
  induction m with
  | nil => simp [dataFind, dataSet]
  | cons hd rest ih =>
    obtain ⟨k, w⟩ := hd
    by_cases hk : k = key
    · subst hk
      simp only [dataSet, if_pos rfl, dataFind]
      split_ifs <;> simp_all [dataFind]
    · simp only [dataSet, if_neg hk, dataFind, ih]
      split_ifs <;> simp_all

theorem mergeEntry_find (m : DataMap) (e : GarminEntry) (d : String) :
    dataFind (mergeEntry m e).1 d = dataFind m d ∨
    dataFind (mergeEntry m e).1 d = some (newData e) := by
  unfold mergeEntry
  rcases h : dataFind m e.calendarDate with _ | v
  · simp only [h, dataFind_dataSet]
    split_ifs <;> [right; left] <;> rfl
  · cases v with
    | null =>
      simp only [h, dataFind_dataSet]
      split_ifs <;> [right; left] <;> rfl
    | legacy s =>
      simp only [h]
      split_ifs with hne
      · simp only [dataFind_dataSet]
        split_ifs <;> [right; left] <;> rfl
      · left; rfl
    | record s k =>
      simp only [h]
      split_ifs with hne
      · simp only [dataFind_dataSet]
        split_ifs <;> [right; left] <;> rfl
      · left; rfl

theorem mergeStats_cons_data (m : DataMap) (e : GarminEntry) (rest : List GarminEntry) :
    (mergeStats m (e :: rest)).data = (mergeStats (mergeEntry m e).1 rest).data := by
  rcases hp : mergeEntry m e with ⟨m', k⟩
  simp only [mergeStats, hp]
  cases k <;> rfl

/-- Concrete dataset with one legacy integer record, used by witnesses. -/
def legacyMap : DataMap := [("2026-01-05", .legacy 8000)]

/-- Fetched entry matching `legacyMap`'s record after normalization. -/
def sameEntry : GarminEntry :=
  { calendarDate := "2026-01-05", totalSteps := some 8000,
    totalDistance := none, totalDistanceMeters := none }

/-- Fetched entry for a date absent from `legacyMap`. -/
def febEntry : GarminEntry :=
  { calendarDate := "2026-01-02", totalSteps := some 5000,
    totalDistance := none, totalDistanceMeters := none }

/-- C5: the merge normalizes steps (null → 0) and
`distanceKm = round(distanceMeters / 1000, 2)` (0 if meters missing/null),
normalizes a legacy integer existing record to `{steps: value, km: 0}`
before comparing, classifies new iff the key is absent or null, updated iff
present with a differing normalized value, unchanged otherwise; an
unchanged entry leaves the stored dataset identical, and legacy `8000`
against fetch `{steps: 8000, km: 0}` is unchanged. -/
theorem merge_classification (m : DataMap) (e : GarminEntry) :
    (e.totalSteps = none → newData e = .record 0 (entryKm e)) ∧
    (entryMeters e = 0 → entryKm e = 0) ∧
    (entryMeters e ≠ 0 → entryKm e = round2 (entryMeters e / 1000)) ∧
    ((mergeEntry m e).2 = .new ↔
      dataFind m e.calendarDate = none ∨ dataFind m e.calendarDate = some .null) ∧
    ((mergeEntry m e).2 = .updated ↔
      ∃ v, dataFind m e.calendarDate = some v ∧ v ≠ .null ∧
        normalizeLegacy v ≠ newData e) ∧
    ((mergeEntry m e).2 = .unchanged ↔
      ∃ v, dataFind m e.calendarDate = some v ∧ v ≠ .null ∧
        normalizeLegacy v = newData e) ∧
    ((mergeEntry m e).2 = .unchanged → (mergeEntry m e).1 = m) ∧
    (dataFind m e.calendarDate = some (.legacy 8000) → newData e = .record 8000 0 →
      (mergeEntry m e).2 = .unchanged ∧ (mergeEntry m e).1 = m) := by
  refine ⟨?_, ?_, ?_, ?_, ?_, ?_, ?_, ?_⟩
  · intro h; simp [newData, entrySteps, h]
  · intro h; simp [entryKm, h]
  · intro h; simp [entryKm, h]
  · rcases hfind : dataFind m e.calendarDate with _ | v
    · simp [mergeEntry, hfind]
    · cases v with
      | null => simp [mergeEntry, hfind]
      | legacy s =>
        by_cases hne : normalizeLegacy (.legacy s) = newData e <;>
          simp [mergeEntry, hfind, hne]
      | record s k =>
        by_cases hne : normalizeLegacy (.record s k) = newData e <;>
          simp [mergeEntry, hfind, hne]
  · rcases hfind : dataFind m e.calendarDate with _ | v
    · simp [mergeEntry, hfind]
    · cases v with
      | null => simp [mergeEntry, hfind]
      | legacy s =>
        by_cases hne : normalizeLegacy (.legacy s) = newData e <;>
          simp [mergeEntry, hfind, hne]
      | record s k =>
        by_cases hne : normalizeLegacy (.record s k) = newData e <;>
          simp [mergeEntry, hfind, hne]
  · rcases hfind : dataFind m e.calendarDate with _ | v
    · simp [mergeEntry, hfind]
    · cases v with
      | null => simp [mergeEntry, hfind]
      | legacy s =>
        by_cases hne : normalizeLegacy (.legacy s) = newData e <;>
          simp [mergeEntry, hfind, hne]
      | record s k =>
        by_cases hne : normalizeLegacy (.record s k) = newData e <;>
          simp [mergeEntry, hfind, hne]
  · rcases hfind : dataFind m e.calendarDate with _ | v
    · simp [mergeEntry, hfind]
    · cases v with
      | null => simp [mergeEntry, hfind]
      | legacy s =>
        by_cases hne : normalizeLegacy (.legacy s) = newData e <;>
          simp [mergeEntry, hfind, hne]
      | record s k =>
        by_cases hne : normalizeLegacy (.record s k) = newData e <;>
          simp [mergeEntry, hfind, hne]
  · intro h1 h2
    simp [mergeEntry, h1, normalizeLegacy, h2]

/-- Witness for C5: legacy `8000` against fetch `{steps: 8000, km: 0}`. -/
theorem merge_classification_witness :
    (mergeEntry legacyMap sameEntry).2 = .unchanged ∧
    (mergeEntry legacyMap sameEntry).1 = legacyMap :=
  (merge_classification legacyMap sameEntry).2.2.2.2.2.2.2 rfl rfl

/-- C6 counterexample: a legacy integer record at a date the fetch does not
touch survives verbatim into the published dataset (the merge produced one
new record, so the dataset is published). -/
theorem legacy_value_survives_merge :
    dataFind (mergeStats legacyMap [febEntry]).data "2026-01-05" =
      some (.legacy 8000) ∧
    (mergeStats legacyMap [febEntry]).newCount = 1 := ⟨rfl, rfl⟩

/-- C6 amended: every date's value in the merged output is either carried
over unchanged from the input dataset or is a record-form value written by
the merge; so the merge itself only writes the record form, but an existing
legacy integer at a date it does not overwrite survives into the output. -/
theorem merge_output_value_origin (m : DataMap) (es : List GarminEntry) (d : String) :
    dataFind (mergeStats m es).data d = dataFind m d ∨
    ∃ s k, dataFind (mergeStats m es).data d = some (.record s k) := by
  induction es generalizing m with
  | nil => left; rfl
  | cons e rest ih =>
    rw [mergeStats_cons_data]
    rcases ih (mergeEntry m e).1 with h | h
    · rw [h]
      rcases mergeEntry_find m e d with h1 | h1
      · left; exact h1
      · right; exact ⟨entrySteps e, entryKm e, h1⟩
    · right; exact h

/-- C10: the merged output's date keys are a superset of the existing
dataset's date keys — the merge only adds or overwrites, never deletes. -/
theorem merge_never_deletes (m : DataMap) (es : List GarminEntry) (d : String)
    (h : (dataFind m d).isSome = true) :
    (dataFind (mergeStats m es).data d).isSome = true := by
  induction es generalizing m with
  | nil => exact h
  | cons e rest ih =>
    rw [mergeStats_cons_data]
    apply ih
    rcases mergeEntry_find m e d with h1 | h1 <;> rw [h1]
    · exact h
    · rfl

/-- Witness for C10 on a concrete dataset and entry list. -/
theorem merge_never_deletes_witness :
    (dataFind legacyMap "2026-01-05").isSome = true ∧
    (dataFind (mergeStats legacyMap [febEntry]).data "2026-01-05").isSome = true :=
  ⟨rfl, merge_never_deletes legacyMap [febEntry] "2026-01-05" rfl⟩

/-! ## Run reports and the graceful-degradation branch (`main`, lines 841-876) -/

inductive RunReport
  | success
  | warning (msg : String)
  | failure (msg : String)
  deriving Repr, DecidableEq

structure Metadata where
  lastUpdated : String
  timezone : String
  lastFailure : Option String
  failureReason : Option String
  deriving Repr, DecidableEq

structure Dataset where
  metadata : Metadata
  data : DataMap
  deriving Repr, DecidableEq

/-- The `if not stats:` branch of `main` (lines 841-876), entered when the
fetch step yields zero entries.  With non-empty `existing_data` it builds an
output dataset carrying the existing data and fresh metadata, uploads it
(`uploadOk` abstracts the result of `upload_to_r2`) and reports a warning on
successful upload (a failure when even that upload fails); with empty
`existing_data` it reports a hard failure and publishes nothing. -/
def gracefulDegradation (existing_data : DataMap) (nowIso timezone_str : String)
    (uploadOk : Bool) : Option Dataset × RunReport :=
  if existing_data ≠ [] then
    let output : Dataset :=
      { metadata := { lastUpdated := nowIso, timezone := timezone_str,
                      lastFailure := some nowIso,
                      failureReason := some "Garmin API unavailable - data preserved" },
        data := existing_data }
    if uploadOk then
      (some output, .warning "Garmin API unavailable - existing data preserved")
    else
      (some output, .failure "Garmin API unavailable and R2 update failed")
  else
    (none, .failure "No data available - Garmin API down and no cached data")

/-- C7: when the fetch yields zero entries and a (non-empty) existing
dataset is available, the run republishes the existing data mapping
verbatim, with `metadata.lastUpdated`, `metadata.lastFailure` and
`metadata.failureReason` freshly set, and reports a warning rather than a
failure (given the republish upload itself succeeds); with no existing data
it publishes nothing and reports a hard failure. -/
theorem graceful_degradation_preserves_data (existing_data : DataMap)
    (nowIso tz : String) (h : existing_data ≠ []) :
    (∃ ds : Dataset,
      gracefulDegradation existing_data nowIso tz true =
        (some ds, .warning "Garmin API unavailable - existing data preserved") ∧
      ds.data = existing_data ∧
      ds.metadata.lastUpdated = nowIso ∧
      ds.metadata.lastFailure = some nowIso ∧
      ds.metadata.failureReason = some "Garmin API unavailable - data preserved") ∧
    (∀ ok : Bool, gracefulDegradation [] nowIso tz ok =
      (none, .failure "No data available - Garmin API down and no cached data")) := by
  constructor
  · refine ⟨Dataset.mk (Metadata.mk nowIso tz (some nowIso)
      (some "Garmin API unavailable - data preserved")) existing_data,
      ?_, rfl, rfl, rfl, rfl⟩
    simp [gracefulDegradation, h]
  · intro ok
    simp [gracefulDegradation]

/-- Witness for C7 on a concrete one-day dataset. -/
theorem graceful_degradation_witness :
    ∃ ds : Dataset,
      gracefulDegradation [("2026-01-05", .record 8000 0)] "2026-02-01T09:00:00+11:00"
          "Australia/Sydney" true =
        (some ds, .warning "Garmin API unavailable - existing data preserved") ∧
      ds.data = [("2026-01-05", .record 8000 0)] ∧
      ds.metadata.lastUpdated = "2026-02-01T09:00:00+11:00" ∧
      ds.metadata.lastFailure = some "2026-02-01T09:00:00+11:00" ∧
      ds.metadata.failureReason = some "Garmin API unavailable - data preserved" :=
  (graceful_degradation_preserves_data [("2026-01-05", .record 8000 0)]
    "2026-02-01T09:00:00+11:00" "Australia/Sydney" (by simp)).1

/-! ## The post-merge publish phase (`main`, lines 950-1021, and
`download_config_from_r2`, lines 639-672)

After the merge, `main` generates `config_content`, calls
`download_config_from_r2()` — which performs a storage read of `config.js`
when R2 is configured and returns `None` without any storage traffic
otherwise — compares, and uploads only when `steps_updated or
config_changed`.  `send_healthcheck_success()` runs at the end of the try
block either way.  We record the storage operations the phase performs. -/

inductive StorageOp
  | readConfig
  | writeData
  | writeConfig
  deriving Repr, DecidableEq

def publishPhase (r2Configured : Bool) (storedConfig : Option String)
    (steps_updated : Bool) (config_content : String) : List StorageOp × RunReport :=
  let readOps : List StorageOp := if r2Configured then [.readConfig] else []
  let existing_config : Option String := if r2Configured then storedConfig else none
  let config_changed : Bool := !(existing_config == some config_content)
  let data_changes := steps_updated || config_changed
  if data_changes then
    (readOps ++ (if steps_updated then [.writeData] else []) ++
      (if config_changed then [.writeConfig] else []), .success)
  else
    (readOps, .success)

/-- C9 counterexample: in the no-change path (zero new/updated records and
generated config equal to the stored config) the orchestrator does contact
storage — it performs a read of the stored config to decide that nothing
changed — contradicting "no storage read or write occurs". -/
theorem no_change_path_reads_storage :
    (publishPhase true (some "cfg") false "cfg").1 = [StorageOp.readConfig] ∧
    (publishPhase true (some "cfg") false "cfg").1 ≠ [] := ⟨rfl, by decide⟩

/-- C9 amended: if the merge produced zero new/updated records and the
generated config equals the stored config, the publish is skipped (no
storage write occurs) and the run reports success; the only storage contact
in this path is the single read of the stored config used to detect that
nothing changed. -/
theorem no_change_skips_publish (storedConfig : Option String) (config_content : String)
    (h : storedConfig = some config_content) :
    publishPhase true storedConfig false config_content =
      ([StorageOp.readConfig], .success) ∧
    StorageOp.writeData ∉ (publishPhase true storedConfig false config_content).1 ∧
    StorageOp.writeConfig ∉ (publishPhase true storedConfig false config_content).1 := by
  subst h
  refine ⟨?_, ?_, ?_⟩ <;> simp [publishPhase]

/-- Witness for C9's amended statement at a concrete config. -/
theorem no_change_skips_publish_witness :
    publishPhase true (some "window.CONFIG") false "window.CONFIG" =
      ([StorageOp.readConfig], .success) :=
  (no_change_skips_publish (some "window.CONFIG") "window.CONFIG" rfl).1

/-! ## Reconciliation plan (`main`, lines 749-821)

Calendar dates are modelled as integers (day numbers):
`datetime.timedelta(days=1)` is `+ 1` and `date.isoformat()` keys of
`existing_data` become the set `existing : List Int`.  The code builds
`dates_to_check` (missing dates, then today, then the previous two days,
each appended only when not already present and `>= start_date`), sorts,
and takes `missing_dates[0]`/`missing_dates[-1]` as the fetch window. -/

def rangeDates (a b : Int) : List Int :=
  (List.range (b + 1 - a).toNat).map (fun i : Nat => a + (i : Int))

def datesToCheckUnsorted (force_dates : Option (Int × Int))
    (start_date today : Int) (existing : List Int) : List Int :=
  match force_dates with
  | some (fs, fe) => rangeDates fs fe
  | none =>
    let missing := (rangeDates start_date today).filter (fun d => decide (d ∉ existing))
    let l1 := if start_date ≤ today ∧ today ∉ missing then missing ++ [today] else missing
    let l2 := if start_date ≤ today - 1 ∧ today - 1 ∉ l1 then l1 ++ [today - 1] else l1
    if start_date ≤ today - 2 ∧ today - 2 ∉ l2 then l2 ++ [today - 2] else l2

/-- `missing_dates.sort()`. -/
def reconPlan (force_dates : Option (Int × Int)) (start_date today : Int)
    (existing : List Int) : List Int :=
  List.insertionSort (· ≤ ·) (datesToCheckUnsorted force_dates start_date today existing)

/-- `fetch_start = missing_dates[0]`, `fetch_end = missing_dates[-1]`
(guarded by the `if not missing_dates: return` early exit). -/
def fetchWindow (dates : List Int) : Option (Int × Int) :=
  match dates.head?, dates.getLast? with
  | some a, some b => some (a, b)
  | _, _ => none

theorem mem_rangeDates (a b d : Int) : d ∈ rangeDates a b ↔ a ≤ d ∧ d ≤ b := by
  simp only [rangeDates, List.mem_map, List.mem_range]
  constructor
  · rintro ⟨i, hi, rfl⟩
    omega
  · rintro ⟨h1, h2⟩
    exact ⟨(d - a).toNat, by omega, by omega⟩

theorem mem_appendIf (l : List Int) (x d : Int) (c : Prop) [Decidable c] :
    (d ∈ if c ∧ x ∉ l then l ++ [x] else l) ↔ d ∈ l ∨ (d = x ∧ c) := by
  split_ifs with hc
  · simp only [List.mem_append, List.mem_singleton]
    constructor
    · rintro (h | rfl)
      · exact Or.inl h
      · exact Or.inr ⟨rfl, hc.1⟩
    · rintro (h | ⟨rfl, _⟩)
      · exact Or.inl h
      · exact Or.inr rfl
  · constructor
    · exact Or.inl
    · rintro (h | ⟨rfl, hcc⟩)
      · exact h
      · by_contra hdl
        exact hc ⟨hcc, hdl⟩

theorem mem_datesToCheckUnsorted_none (start_date today : Int) (existing : List Int)
    (d : Int) :
    d ∈ datesToCheckUnsorted none start_date today existing ↔
      ((start_date ≤ d ∧ d ≤ today ∧ d ∉ existing) ∨
       (d = today ∧ start_date ≤ today) ∨
       (d = today - 1 ∧ start_date ≤ today - 1) ∨
       (d = today - 2 ∧ start_date ≤ today - 2)) := by
  simp only [datesToCheckUnsorted]
  rw [mem_appendIf, mem_appendIf, mem_appendIf]
  simp only [List.mem_filter, mem_rangeDates, decide_eq_true_eq]
  tauto

theorem head?_mem (l : List Int) (a : Int) (h : l.head? = some a) : a ∈ l := by
  cases l with
  | nil => cases h
  | cons x rest =>
    simp only [List.head?] at h
    injection h with h
    rw [← h]
    exact List.mem_cons_self _ _

theorem getLast?_mem (l : List Int) (b : Int) (h : l.getLast? = some b) : b ∈ l := by
  cases l with
  | nil => cases h
  | cons x rest =>
    have h1 := List.getLast?_eq_getLast_of_ne_nil (l := x :: rest) (by simp)
    rw [h] at h1
    injection h1 with h1
    rw [h1]
    exact List.getLast_mem _

theorem sorted_head_le (l : List Int) (hs : l.Sorted (· ≤ ·)) (a : Int)
    (ha : l.head? = some a) : ∀ d ∈ l, a ≤ d := by
  cases l with
  | nil => cases ha
  | cons x rest =>
    simp only [List.head?] at ha
    injection ha with ha
    intro d hd
    rcases List.mem_cons.mp hd with rfl | hd'
    · exact le_of_eq ha.symm
    · rw [← ha]
      exact List.rel_of_sorted_cons hs _ hd'

theorem sorted_le_getLast :
    ∀ l : List Int, l.Sorted (· ≤ ·) → ∀ b, l.getLast? = some b → ∀ d ∈ l, d ≤ b := by
  intro l
  induction l with
  | nil =>
    intro _ b hb
    cases hb
  | cons x rest ih =>
    intro hs b hb d hd
    have hbmem : b ∈ x :: rest := getLast?_mem _ _ hb
    rcases List.mem_cons.mp hd with rfl | hd'
    · rcases List.mem_cons.mp hbmem with hbx | hbr
      · exact le_of_eq hbx.symm
      · exact List.rel_of_sorted_cons hs _ hbr
    · cases hrest : rest with
      | nil =>
        subst hrest
        cases hd'
      | cons y ys =>
        subst hrest
        refine ih hs.of_cons b ?_ d hd'
        rw [List.getLast?_cons_cons] at hb
        exact hb

/-- C8 counterexample: the claim quantifies over every `startDate` and
`today` and asserts `today` is always in the computed date set, but with
`startDate = 5` and `today = 3` (today before the tracking start) the code
computes an empty plan, so `today = 3` is not in it. -/
theorem recon_plan_counterexample :
    reconPlan none 5 3 [] = [] ∧ (3 : Int) ∉ reconPlan none 5 3 [] := by
  constructor
  · rfl
  · decide

/-- C8 amended: provided `startDate ≤ today`, without a forced override the
computed date set is exactly the dates in `[startDate, today]` absent from
the existing data, plus `today`, plus the previous two calendar days (those
`≥ startDate`); with a forced override the set is exactly the override
range; the list is sorted and the fetch window is `[min(dates), max(dates)]`. -/
theorem recon_plan_correct (start_date today : Int) (existing : List Int)
    (h : start_date ≤ today) :
    (∀ d, d ∈ reconPlan none start_date today existing ↔
      ((start_date ≤ d ∧ d ≤ today ∧ d ∉ existing) ∨ d = today ∨
       (d = today - 1 ∧ start_date ≤ today - 1) ∨
       (d = today - 2 ∧ start_date ≤ today - 2))) ∧
    (∀ fs fe d, d ∈ reconPlan (some (fs, fe)) start_date today existing ↔
      fs ≤ d ∧ d ≤ fe) ∧
    (∀ force_dates, (reconPlan force_dates start_date today existing).Sorted (· ≤ ·)) ∧
    (∀ force_dates a b,
      fetchWindow (reconPlan force_dates start_date today existing) = some (a, b) →
      a ∈ reconPlan force_dates start_date today existing ∧
      b ∈ reconPlan force_dates start_date today existing ∧
      ∀ d ∈ reconPlan force_dates start_date today existing, a ≤ d ∧ d ≤ b) := by
  refine ⟨?_, ?_, ?_, ?_⟩
  · intro d
    rw [reconPlan, (List.perm_insertionSort _ _).mem_iff,
      mem_datesToCheckUnsorted_none]
    constructor
    · rintro (h1 | h1 | h1 | h1)
      · exact Or.inl h1
      · exact Or.inr (Or.inl h1.1)
      · exact Or.inr (Or.inr (Or.inl h1))
      · exact Or.inr (Or.inr (Or.inr h1))
    · rintro (h1 | h1 | h1 | h1)
      · exact Or.inl h1
      · exact Or.inr (Or.inl ⟨h1, h⟩)
      · exact Or.inr (Or.inr (Or.inl h1))
      · exact Or.inr (Or.inr (Or.inr h1))
  · intro fs fe d
    rw [reconPlan, (List.perm_insertionSort _ _).mem_iff]
    exact mem_rangeDates fs fe d
  · intro force_dates
    exact List.sorted_insertionSort _ _
  · intro force_dates a b hw
    have hs : (reconPlan force_dates start_date today existing).Sorted (· ≤ ·) :=
      List.sorted_insertionSort _ _
    unfold fetchWindow at hw
    rcases hh : (reconPlan force_dates start_date today existing).head? with _ | a'
    · rw [hh] at hw
      rcases hg : (reconPlan force_dates start_date today existing).getLast? with _ | b' <;>
        rw [hg] at hw <;> cases hw
    · rcases hg : (reconPlan force_dates start_date today existing).getLast? with _ | b'
      · rw [hh, hg] at hw
        cases hw
      · rw [hh, hg] at hw
        injection hw with hw
        injection hw with hw1 hw2
        rw [← hw1, ← hw2]
        refine ⟨head?_mem _ _ hh, getLast?_mem _ _ hg, ?_⟩
        intro d hd
        exact ⟨sorted_head_le _ hs _ hh d hd, sorted_le_getLast _ hs _ hg d hd⟩

/-- Witness for C8: `startDate = 1 ≤ today = 10`, existing data for days 3
and 10; day 4 is missing and is in the plan, and the plan is sorted. -/
theorem recon_plan_witness :
    ((1 : Int) ≤ 10) ∧
    ((4 : Int) ∈ reconPlan none 1 10 [3, 10]) ∧
    (reconPlan none 1 10 [3, 10]).Sorted (· ≤ ·) :=
  ⟨by norm_num,
   ((recon_plan_correct 1 10 [3, 10] (by norm_num)).1 4).mpr
     (Or.inl ⟨by norm_num, by norm_num, by decide⟩),
   (recon_plan_correct 1 10 [3, 10] (by norm_num)).2.2.1 none⟩

end StepTracker
